import Mathlib

/-!
Shallow embedding of the `useAxios` hook from `src/unnamed/part_000`.

The hook wraps an axios instance with reactive state cells
(response, data, error, isLoading, isFinished), a per-instance
cancellation handle (`AbortController`), a bounded retry loop
(`executeWithRetry`), URL templating by a single non-global regex
substitution, and config merging via `Object.assign`.

Modelling conventions:
* reactive cells become fields of `HookState`;
* `AbortController` handles become `Nat` identifiers; the set of
  aborted handles is a list; `nextId` supplies fresh identifiers;
* the transport (`() => instance(_url, _config)`) is a function from
  the invocation index to an `Except` outcome, so each re-invocation
  may succeed or fail independently;
* callbacks (`onSuccess`, `onError`, `onFinish`) are recorded as an
  event list in the order the call sites fire;
* JS `undefined` / absent object fields become `Option.none`;
* the URL and the merged config handed to the transport are exposed
  as fields of the result (`reqUrl`, `reqConfig`), since the code
  passes exactly these values to `instance(_url, _config)`.
-/

namespace VuseAxios

/-- An axios response; only the `data` field is used by the hook. -/
structure AxiosResponse (D : Type) where
  data : D
deriving DecidableEq, Repr

/-- An axios error: an identifier to tell errors apart, and whether
`axios.isCancel` holds of it (a `CanceledError` from an aborted signal). -/
structure AxiosError where
  code : Nat
  isCancel : Bool
deriving DecidableEq, Repr

/-- `axios.isCancel(err)` applied to the optional error slot of the
retry-loop result; `undefined` is not a cancellation. -/
def isCancelErr : Option AxiosError → Bool
  | some e => e.isCancel
  | none => false

/-- Value of a `urlParams` entry: `string | number`. -/
inductive UrlValue where
  | str (s : String)
  | num (n : Int)
deriving DecidableEq, Repr

/-- JS `String(urlParams[key])`: property access on a missing key gives
`undefined`, and `String(undefined) = "undefined"`. -/
def jsStringOf : Option UrlValue → String
  | none => "undefined"
  | some (.str s) => s
  | some (.num n) => toString n

/-- Lookup of a key in a `urlParams` record. -/
def lookupUrlParam (up : List (String × UrlValue)) (k : String) : Option UrlValue :=
  up.lookup k

/-- A regex word character, `\w`. -/
def isWordChar (c : Char) : Bool := c.isAlphanum || c = '_'

/-- Try to match the regex `\{(\w+)\}` at the very start of `cs`; on
success return the captured key and the remainder after the match.
Greedy `\w+` cannot backtrack usefully here: any shorter capture ends
at a word character, which is not the closing brace. -/
def matchAt (cs : List Char) : Option (List Char × List Char) :=
  match cs with
  | [] => none
  | c :: rest =>
    if c = '{' then
      let key := rest.takeWhile isWordChar
      if key = [] then none
      else
        match rest.dropWhile isWordChar with
        | '}' :: tail => some (key, tail)
        | _ => none
    else none

/-- `String.prototype.replace` with the NON-global regex `/\{(\w+)\}/`:
scan left to right, replace only the first match by `repl key`, leave
the rest of the string untouched. -/
def replaceFirst (repl : List Char → List Char) : List Char → List Char
  | [] => []
  | c :: rest =>
    match matchAt (c :: rest) with
    | some (key, tail) => repl key ++ tail
    | none => c :: replaceFirst repl rest

/-- `/\{\w+\}/.test(url)`: is there a placeholder anywhere in `cs`? -/
def testPlaceholder : List Char → Bool
  | [] => false
  | c :: rest => (matchAt (c :: rest)).isSome || testPlaceholder rest

/-- `const isDynamicURL = /\{\w+\}/.test(url)`. -/
def isDynamicURL (url : String) : Bool := testPlaceholder url.data

/-- `url.replace(/\{(\w+)\}/, (_, key) => String(urlParams[key]))`. -/
def substUrl (url : String) (up : List (String × UrlValue)) : String :=
  String.mk (replaceFirst (fun key => (jsStringOf (lookupUrlParam up (String.mk key))).data) url.data)

/-- Leftmost-match decomposition of a string at the regex `\{(\w+)\}`:
the prefix before the first match, the captured key, and the suffix
after the match.  Used to state which placeholder `replaceFirst`
rewrites. -/
def findFirst : List Char → Option (List Char × List Char × List Char)
  | [] => none
  | c :: rest =>
    match matchAt (c :: rest) with
    | some (key, tail) => some ([], key, tail)
    | none => (findFirst rest).map fun x => (c :: x.1, x.2.1, x.2.2)

/-- The `Payload` interface: per-call `params`, `data` and `urlParams`,
each optional.  `P` and `B` are the (opaque) types of the query-params
object and of the request body. -/
structure Payload (P B : Type) where
  params : Option P := none
  data : Option B := none
  urlParams : Option (List (String × UrlValue)) := none
deriving DecidableEq, Repr

/-- The fields of `AxiosRequestConfig` that the hook reads or writes:
`params`, `data` and the abort `signal` (a controller identifier). -/
structure RequestConfig (P B : Type) where
  params : Option P := none
  data : Option B := none
  signal : Option Nat := none
deriving DecidableEq, Repr

/-- The `payload` option: absent, a plain value, or a producer
function, as in `payload?: T | (() => T)`. -/
inductive PayloadOpt (P B : Type) where
  | none
  | value (p : Payload P B)
  | producer (f : Unit → Payload P B)

/-- The options destructured by the hook that affect `execute`:
`autoCancelLastReq` (default `false`), `retry` (default `0`) and the
default `payload`. -/
structure Options (P B : Type) where
  autoCancelLastReq : Bool := false
  retry : Nat := 0
  payload : PayloadOpt P B := .none

/-- The closure `defaultPayload`: if the configured payload is a
function it is invoked to produce the value, otherwise the configured
value itself (possibly absent) is returned. -/
def defaultPayload : PayloadOpt P B → Option (Payload P B)
  | .none => none
  | .value p => some p
  | .producer f => some (f ())

/-- The reactive cells of one hook instance plus the cancellation
handle: `controller` is the current handle (none before the first
`execute`), `aborted` the handles on which `abort()` was called, and
`nextId` the supply of fresh handle identifiers. -/
structure HookState (D : Type) where
  response : Option (AxiosResponse D) := none
  data : Option D := none
  error : Option AxiosError := none
  isLoading : Bool := false
  isFinished : Bool := false
  controller : Option Nat := none
  aborted : List Nat := []
  nextId : Nat := 0
deriving DecidableEq, Repr

/-- The object `execute` resolves with. -/
structure ExecuteReturn (D : Type) where
  response : Option (AxiosResponse D) := none
  data : Option D := none
  error : Option AxiosError := none
  isCancel : Bool
deriving DecidableEq, Repr

/-- One callback invocation, in program order. -/
inductive CallbackEvent (D : Type) where
  | success (data : D) (response : AxiosResponse D)
  | error (err : AxiosError)
  | finish
deriving DecidableEq, Repr

/-- Everything observable about one `execute` call: the final hook
state, the resolved value, the callback invocations, and the URL and
config actually handed to the transport `instance(_url, _config)`. -/
structure ExecuteOutcome (D P B : Type) where
  state : HookState D
  ret : ExecuteReturn D
  events : List (CallbackEvent D)
  reqUrl : String
  reqConfig : RequestConfig P B
deriving Repr

/-- The `cancel` function of the hook:
```
function cancel() {
  if (isLoading.value) return
  controller?.abort()
  isLoading.value = false
}
```
Note the guard: `cancel` returns WITHOUT aborting exactly when a
request is loading. -/
def cancel (s : HookState D) : HookState D :=
  if s.isLoading then s
  else
    { s with
      aborted := match s.controller with
        | some c => c :: s.aborted
        | none => s.aborted
      isLoading := false }

/-- `Object.assign({}, config, restPayload, { signal: controller.signal })`:
field-wise, the last source owning the field wins, the target is a
fresh object and neither input is mutated (the model is pure).
`restPayload` is the payload minus `urlParams`, hence exactly its
`params` and `data` fields. -/
def mergeConfig (config : RequestConfig P B) (pparams : Option P) (pdata : Option B)
    (sig : Nat) : RequestConfig P B :=
  { params := pparams.orElse fun _ => config.params
    data := pdata.orElse fun _ => config.data
    signal := some sig }

/-- The retry loop `executeWithRetry(asyncFn, time = 0)` of the
source, modelled with the invocation index `k` explicit: invocation `k` has
outcome `asyncFn k`.  On failure, `time-- > 0` retries with one fewer
remaining retry, otherwise resolves `[undefined, err]`; on success it
resolves `[res, undefined]` at once. -/
def executeWithRetryFrom (asyncFn : Nat → Except AxiosError (AxiosResponse D))
    (k : Nat) (time : Nat) : Option (AxiosResponse D) × Option AxiosError :=
  match asyncFn k with
  | .ok res => (some res, none)
  | .error err =>
    match time with
    | 0 => (none, some err)
    | t + 1 => executeWithRetryFrom asyncFn (k + 1) t

/-- `executeWithRetry(asyncFn, time)` starting at invocation `0`. -/
def executeWithRetry (asyncFn : Nat → Except AxiosError (AxiosResponse D)) (time : Nat) :
    Option (AxiosResponse D) × Option AxiosError :=
  executeWithRetryFrom asyncFn 0 time

/-- Number of transport invocations `executeWithRetryFrom` performs:
with no retry budget left the loop makes exactly one invocation;
otherwise it makes one invocation and, if that one fails, the
invocations of the remaining retries. -/
def retryInvocationsFrom (asyncFn : Nat → Except AxiosError (AxiosResponse D))
    (k : Nat) : Nat → Nat
  | 0 => 1
  | t + 1 =>
    match asyncFn k with
    | .ok _ => 1
    | .error _ => 1 + retryInvocationsFrom asyncFn (k + 1) t

/-- Number of transport invocations of `executeWithRetry asyncFn time`. -/
def retryInvocations (asyncFn : Nat → Except AxiosError (AxiosResponse D)) (time : Nat) : Nat :=
  retryInvocationsFrom asyncFn 0 time

/-- Body of `execute` after the default-argument binding of `payload`
(so `payload : Option _` here is the bound JS parameter, which may
still be `undefined`). Follows lines 67-93 of the source. -/
def executeBody (url : String) (config : RequestConfig P B) (opts : Options P B)
    (transport : Nat → Except AxiosError (AxiosResponse D))
    (s : HookState D) (payload : Option (Payload P B)) : ExecuteOutcome D P B :=
  let s1 := if opts.autoCancelLastReq then cancel s else s
  let ctrl := s1.nextId
  let s2 := { s1 with controller := some ctrl, nextId := ctrl + 1 }
  let p := payload.getD {}
  let u :=
    match p.urlParams with
    | some up => if isDynamicURL url then substUrl url up else url
    | none => url
  let cfg := mergeConfig config p.params p.data ctrl
  let s3 := { s2 with isLoading := true, isFinished := false }
  let rr := executeWithRetry transport opts.retry
  let res := rr.1
  let err := rr.2
  if isCancelErr err then
    { state := s3, ret := { isCancel := true }, events := [], reqUrl := u, reqConfig := cfg }
  else
    let s4 := { s3 with
      response := res
      data := res.map AxiosResponse.data
      error := err
      isLoading := false }
    let ev1 : List (CallbackEvent D) :=
      match res with
      | some r => [.success r.data r]
      | none =>
        match err with
        | some e => [.error e]
        | none => []
    let s5 := { s4 with isFinished := true }
    { state := s5
      ret := { response := res, data := res.map AxiosResponse.data, error := err, isCancel := false }
      events := ev1 ++ [.finish]
      reqUrl := u
      reqConfig := cfg }

/-- `async function execute(payload = defaultPayload())`: the default
argument is used when the caller passes no payload (or `undefined`). -/
def execute (url : String) (config : RequestConfig P B) (opts : Options P B)
    (transport : Nat → Except AxiosError (AxiosResponse D))
    (s : HookState D) (payloadArg : Option (Payload P B)) : ExecuteOutcome D P B :=
  executeBody url config opts transport s
    (payloadArg.orElse fun _ => defaultPayload opts.payload)

/-! ## Lemmas about the retry loop -/

/-- The retry loop performs at most `time + 1` transport invocations. -/
theorem retryInvocationsFrom_le (f : Nat → Except AxiosError (AxiosResponse D)) :
    ∀ time k, retryInvocationsFrom f k time ≤ time + 1 := by
  intro time
  induction time with
  | zero =>
    intro k
    simp [retryInvocationsFrom]
  | succ t ih =>
    intro k
    simp only [retryInvocationsFrom]
    cases hfk : f k with
    | ok res => simp
    | error e =>
      show 1 + retryInvocationsFrom f (k + 1) t ≤ t + 1 + 1
      have := ih (k + 1)
      omega

/-- If invocation `k + i` is the first success (all earlier ones from
`k` fail) and `i` is within budget, the loop resolves with that
response after exactly `i + 1` invocations. -/
theorem executeWithRetryFrom_first_success
    (f : Nat → Except AxiosError (AxiosResponse D)) :
    ∀ i k time res, i ≤ time → f (k + i) = .ok res →
      (∀ j, j < i → ∃ e, f (k + j) = .error e) →
      executeWithRetryFrom f k time = (some res, none) ∧
      retryInvocationsFrom f k time = i + 1 := by
  intro i
  induction i with
  | zero =>
    intro k time res _ hok _
    rw [Nat.add_zero] at hok
    constructor
    · rw [executeWithRetryFrom.eq_def, hok]
    · cases time <;> simp [retryInvocationsFrom, hok]
  | succ i ih =>
    intro k time res hle hok herr
    obtain ⟨t, rfl⟩ : ∃ t, time = t + 1 := ⟨time - 1, by omega⟩
    obtain ⟨e0, h0⟩ := herr 0 (Nat.succ_pos i)
    rw [Nat.add_zero] at h0
    have hok2 : f (k + 1 + i) = .ok res := by rw [← hok]; congr 1; omega
    have herr2 : ∀ j, j < i → ∃ e, f (k + 1 + j) = .error e := by
      intro j hj
      obtain ⟨e2, h2⟩ := herr (j + 1) (by omega)
      exact ⟨e2, by rw [← h2]; congr 1; omega⟩
    obtain ⟨hres, hcnt⟩ := ih (k + 1) t res (by omega) hok2 herr2
    constructor
    · rw [executeWithRetryFrom.eq_def, h0]
      exact hres
    · simp only [retryInvocationsFrom, h0]
      omega

/-- If every invocation in the budget fails, the loop resolves with
the error of the last invocation, `k + time`. -/
theorem executeWithRetryFrom_all_fail
    (f : Nat → Except AxiosError (AxiosResponse D)) :
    ∀ time k e, (∀ j, j ≤ time → ∃ e2, f (k + j) = .error e2) →
      f (k + time) = .error e →
      executeWithRetryFrom f k time = (none, some e) := by
  intro time
  induction time with
  | zero =>
    intro k e _ hfin
    rw [Nat.add_zero] at hfin
    rw [executeWithRetryFrom.eq_def, hfin]
  | succ t ih =>
    intro k e hall hfin
    obtain ⟨e0, h0⟩ := hall 0 (Nat.zero_le _)
    rw [Nat.add_zero] at h0
    rw [executeWithRetryFrom.eq_def, h0]
    show executeWithRetryFrom f (k + 1) t = (none, some e)
    refine ih (k + 1) e ?_ ?_
    · intro j hj
      obtain ⟨e2, h2⟩ := hall (j + 1) (by omega)
      exact ⟨e2, by rw [← h2]; congr 1; omega⟩
    · rw [← hfin]; congr 1; omega

/-- C3: with a configured retry count `n ≥ 0`, the transport is
invoked at most `n + 1` times, and the first successful invocation
(if it comes within the budget) ends the loop at once, resolving with
that response. -/
theorem retry_count_honored (n : Nat) (f : Nat → Except AxiosError (AxiosResponse D)) :
    retryInvocations f n ≤ n + 1 ∧
    ∀ i res, i ≤ n → f i = .ok res → (∀ j, j < i → ∃ e, f j = .error e) →
      executeWithRetry f n = (some res, none) ∧ retryInvocations f n = i + 1 := by
  constructor
  · exact retryInvocationsFrom_le f n 0
  · intro i res hle hok herr
    have := executeWithRetryFrom_first_success f i 0 n res hle
      (by simpa using hok) (by simpa using herr)
    exact ⟨this.1, this.2⟩

/-- Transport used by the witness: fails on invocation 0, succeeds on
invocation 1. -/
def retryWitnessTransport : Nat → Except AxiosError (AxiosResponse Nat) :=
  fun k => if k = 1 then .ok ⟨7⟩ else .error ⟨k, false⟩

/-- Witness for C3: with retry budget 2 and a transport succeeding on
its second invocation, the loop stops there after 2 invocations. -/
theorem retry_count_honored_witness :
    executeWithRetry retryWitnessTransport 2 = (some ⟨7⟩, none) ∧
    retryInvocations retryWitnessTransport 2 = 2 := by
  have h := (retry_count_honored 2 retryWitnessTransport).2 1 ⟨7⟩ (by omega)
    (by rfl)
    (by
      intro j hj
      obtain rfl : j = 0 := by omega
      exact ⟨⟨0, false⟩, rfl⟩)
  exact h

/-! ## Lemmas about URL templating -/

/-- A successful anchored match decomposes the input as an opening
brace, the key, a closing brace and the tail. -/
theorem matchAt_sound {cs key tail : List Char} (h : matchAt cs = some (key, tail)) :
    cs = '{' :: (key ++ '}' :: tail) := by
  match cs with
  | [] => simp [matchAt] at h
  | c :: rest =>
    simp only [matchAt] at h
    split at h
    case isFalse => exact Option.noConfusion h
    case isTrue hc =>
      split at h
      case isTrue => exact Option.noConfusion h
      case isFalse hk =>
        split at h
        case h_2 => exact Option.noConfusion h
        case h_1 tl heq =>
          obtain ⟨hkey, htail⟩ := Prod.mk.injEq .. ▸ Option.some.injEq .. ▸ h
          subst hc
          have hsplit : rest.takeWhile isWordChar ++ rest.dropWhile isWordChar = rest :=
            List.takeWhile_append_dropWhile isWordChar rest
          rw [← hsplit, heq, ← hkey, ← htail]

/-- `findFirst` really is the leftmost-match decomposition, and
`replaceFirst` rewrites exactly that match, keeping the prefix and the
suffix (hence any later placeholder) verbatim. -/
theorem findFirst_spec (repl : List Char → List Char) :
    ∀ cs pre key suf, findFirst cs = some (pre, key, suf) →
      cs = pre ++ '{' :: (key ++ '}' :: suf) ∧
      replaceFirst repl cs = pre ++ repl key ++ suf := by
  intro cs
  induction cs with
  | nil => intro pre key suf h; simp [findFirst] at h
  | cons c rest ih =>
    intro pre key suf h
    cases hm : matchAt (c :: rest) with
    | some kt =>
      obtain ⟨k0, t0⟩ := kt
      simp only [findFirst, hm, Option.some.injEq, Prod.mk.injEq] at h
      obtain ⟨hpre, hkey, hsuf⟩ := h
      subst hpre hkey hsuf
      constructor
      · simpa using matchAt_sound hm
      · simp only [replaceFirst]
        rw [hm]
        simp
    | none =>
      simp only [findFirst, hm, Option.map_eq_some'] at h
      obtain ⟨⟨p0, k0, s0⟩, hf, heq⟩ := h
      simp only [Prod.mk.injEq] at heq
      obtain ⟨hpre, rfl, rfl⟩ := heq
      obtain ⟨hcs, hrep⟩ := ih _ _ _ hf
      constructor
      · rw [← hpre, hcs]
        simp
      · simp only [replaceFirst]
        rw [hm, hrep, ← hpre]
        simp

/-- A string with a leftmost placeholder match passes the dynamic-URL
test. -/
theorem testPlaceholder_of_findFirst :
    ∀ cs x, findFirst cs = some x → testPlaceholder cs = true := by
  intro cs
  induction cs with
  | nil => intro x h; simp [findFirst] at h
  | cons c rest ih =>
    intro x h
    simp only [testPlaceholder, Bool.or_eq_true]
    cases hm : matchAt (c :: rest) with
    | some kt => simp [hm]
    | none =>
      simp only [findFirst, hm, Option.map_eq_some'] at h
      obtain ⟨y, hf, _⟩ := h
      exact Or.inr (ih y hf)

/-- `substUrl` on a URL whose leftmost placeholder is `{key}`:
the prefix and suffix survive verbatim and the placeholder becomes
`String(urlParams[key])`. -/
theorem substUrl_of_findFirst (url : String) (up : List (String × UrlValue))
    {pre key suf : List Char} (hf : findFirst url.data = some (pre, key, suf)) :
    url.data = pre ++ '{' :: (key ++ '}' :: suf) ∧
    substUrl url up
      = String.mk (pre ++ (jsStringOf (lookupUrlParam up (String.mk key))).data ++ suf) := by
  have h := findFirst_spec
    (fun k => (jsStringOf (lookupUrlParam up (String.mk k))).data) url.data pre key suf hf
  exact ⟨h.1, by rw [substUrl, h.2]⟩

/-! ## Behaviour of `execute` -/

/-- C1: the claim says that with `autoCancelLastReq` enabled, a call
to `execute` while a previous request is in flight aborts the prior
handle.  The code does the opposite: `cancel` starts with
`if (isLoading.value) return`, so precisely when a request is in
flight (`isLoading` true) nothing is aborted.  Here: prior handle `0`
in flight, `autoCancelLastReq` on, and after `execute` the aborted set
is still empty. -/
theorem autocancel_leaves_inflight_unaborted :
    (execute "/x" ({} : RequestConfig Unit Unit)
      ({ autoCancelLastReq := true } : Options Unit Unit)
      (fun _ => .ok (⟨5⟩ : AxiosResponse Nat))
      ({ isLoading := true, controller := some 0, nextId := 1 } : HookState Nat)
      none).state.aborted = [] := by
  decide

/-- C2: when the retry loop terminates with a cancellation error, the
error cell keeps its prior value (the cancellation is not stored) and
`execute` resolves with `isCancel = true`. -/
theorem cancellation_not_stored (url : String) (config : RequestConfig P B)
    (opts : Options P B) (transport : Nat → Except AxiosError (AxiosResponse D))
    (s : HookState D) (pa : Option (Payload P B))
    (res : Option (AxiosResponse D)) (e : AxiosError)
    (h : executeWithRetry transport opts.retry = (res, some e))
    (hc : e.isCancel = true) :
    (execute url config opts transport s pa).state.error = s.error ∧
    (execute url config opts transport s pa).ret.isCancel = true := by
  by_cases hac : opts.autoCancelLastReq <;> by_cases hl : s.isLoading <;>
    simp [execute, executeBody, cancel, hac, hl, h, isCancelErr, hc]

/-- Witness for C2 at a concrete input: retry budget 0, a transport
failing with a cancellation, prior error cell holding error 3. -/
theorem cancellation_not_stored_witness :
    (execute "/w" ({} : RequestConfig Unit Unit) ({} : Options Unit Unit)
      (fun _ => .error ⟨9, true⟩)
      ({ error := some ⟨3, false⟩ } : HookState Nat) none).state.error
        = some ⟨3, false⟩ ∧
    (execute "/w" ({} : RequestConfig Unit Unit) ({} : Options Unit Unit)
      (fun _ => .error ⟨9, true⟩)
      ({ error := some ⟨3, false⟩ } : HookState Nat) none).ret.isCancel = true := by
  exact cancellation_not_stored "/w" {} {} (fun _ => .error ⟨9, true⟩)
    { error := some ⟨3, false⟩ } none none ⟨9, true⟩ rfl rfl

/-- C8: a run that terminates by cancellation returns early: the
response, data and error cells keep their prior values, `isLoading`
stays `true`, `isFinished` stays `false`, and no callback fires. -/
theorem cancellation_early_return (url : String) (config : RequestConfig P B)
    (opts : Options P B) (transport : Nat → Except AxiosError (AxiosResponse D))
    (s : HookState D) (pa : Option (Payload P B))
    (res : Option (AxiosResponse D)) (e : AxiosError)
    (h : executeWithRetry transport opts.retry = (res, some e))
    (hc : e.isCancel = true) :
    (execute url config opts transport s pa).state.response = s.response ∧
    (execute url config opts transport s pa).state.data = s.data ∧
    (execute url config opts transport s pa).state.error = s.error ∧
    (execute url config opts transport s pa).state.isLoading = true ∧
    (execute url config opts transport s pa).state.isFinished = false ∧
    (execute url config opts transport s pa).events = [] ∧
    (execute url config opts transport s pa).ret.isCancel = true := by
  by_cases hac : opts.autoCancelLastReq <;> by_cases hl : s.isLoading <;>
    simp [execute, executeBody, cancel, hac, hl, h, isCancelErr, hc]

/-- Witness for C8 at a concrete input: a cancellation outcome leaves
the prior cells (response 1, data 1, error 3) in place, keeps the
loading flag, and fires no callback. -/
theorem cancellation_early_return_witness :
    (execute "/w8" ({} : RequestConfig Unit Unit) ({} : Options Unit Unit)
      (fun _ => .error ⟨8, true⟩)
      ({ response := some ⟨1⟩, data := some 1, error := some ⟨3, false⟩ } : HookState Nat)
      none).state.response = some ⟨1⟩ ∧
    (execute "/w8" ({} : RequestConfig Unit Unit) ({} : Options Unit Unit)
      (fun _ => .error ⟨8, true⟩)
      ({ response := some ⟨1⟩, data := some 1, error := some ⟨3, false⟩ } : HookState Nat)
      none).state.data = some 1 ∧
    (execute "/w8" ({} : RequestConfig Unit Unit) ({} : Options Unit Unit)
      (fun _ => .error ⟨8, true⟩)
      ({ response := some ⟨1⟩, data := some 1, error := some ⟨3, false⟩ } : HookState Nat)
      none).state.error = some ⟨3, false⟩ ∧
    (execute "/w8" ({} : RequestConfig Unit Unit) ({} : Options Unit Unit)
      (fun _ => .error ⟨8, true⟩)
      ({ response := some ⟨1⟩, data := some 1, error := some ⟨3, false⟩ } : HookState Nat)
      none).state.isLoading = true ∧
    (execute "/w8" ({} : RequestConfig Unit Unit) ({} : Options Unit Unit)
      (fun _ => .error ⟨8, true⟩)
      ({ response := some ⟨1⟩, data := some 1, error := some ⟨3, false⟩ } : HookState Nat)
      none).state.isFinished = false ∧
    (execute "/w8" ({} : RequestConfig Unit Unit) ({} : Options Unit Unit)
      (fun _ => .error ⟨8, true⟩)
      ({ response := some ⟨1⟩, data := some 1, error := some ⟨3, false⟩ } : HookState Nat)
      none).events = [] ∧
    (execute "/w8" ({} : RequestConfig Unit Unit) ({} : Options Unit Unit)
      (fun _ => .error ⟨8, true⟩)
      ({ response := some ⟨1⟩, data := some 1, error := some ⟨3, false⟩ } : HookState Nat)
      none).ret.isCancel = true := by
  exact cancellation_early_return "/w8" {} {} (fun _ => .error ⟨8, true⟩)
    { response := some ⟨1⟩, data := some 1, error := some ⟨3, false⟩ } none
    none ⟨8, true⟩ rfl rfl

/-- C4: when every attempt fails and the final error is not a
cancellation, the final error (the one of the last invocation) is
stored in the error cell, the error callback fires exactly once with
it (followed only by the finish callback), and `execute` resolves with
that error.  Intermediate failures never reach a callback or a cell:
the retry loop only re-invokes the transport. -/
theorem final_error_stored_once (url : String) (config : RequestConfig P B)
    (opts : Options P B) (transport : Nat → Except AxiosError (AxiosResponse D))
    (s : HookState D) (pa : Option (Payload P B)) (efinal : AxiosError)
    (hall : ∀ j, j ≤ opts.retry → ∃ e, transport j = .error e)
    (hfin : transport opts.retry = .error efinal)
    (hnc : efinal.isCancel = false) :
    (execute url config opts transport s pa).state.error = some efinal ∧
    (execute url config opts transport s pa).events = [.error efinal, .finish] ∧
    (execute url config opts transport s pa).ret.error = some efinal := by
  have hr : executeWithRetry transport opts.retry = (none, some efinal) :=
    executeWithRetryFrom_all_fail transport opts.retry 0 efinal
      (by simpa using hall) (by simpa using hfin)
  by_cases hac : opts.autoCancelLastReq <;> by_cases hl : s.isLoading <;>
    simp [execute, executeBody, cancel, hac, hl, hr, isCancelErr, hnc]

/-- Transport used by the C4 witness: fails every time with the
invocation index as error code. -/
def alwaysFailTransport : Nat → Except AxiosError (AxiosResponse Nat) :=
  fun k => .error ⟨k, false⟩

/-- Witness for C4 at a concrete input: retry budget 1, both attempts
fail, the error of the second (last) attempt is stored and reported
once. -/
theorem final_error_stored_once_witness :
    (execute "/w4" ({} : RequestConfig Unit Unit)
      ({ retry := 1 } : Options Unit Unit) alwaysFailTransport
      ({} : HookState Nat) none).state.error = some ⟨1, false⟩ ∧
    (execute "/w4" ({} : RequestConfig Unit Unit)
      ({ retry := 1 } : Options Unit Unit) alwaysFailTransport
      ({} : HookState Nat) none).events = [.error ⟨1, false⟩, .finish] ∧
    (execute "/w4" ({} : RequestConfig Unit Unit)
      ({ retry := 1 } : Options Unit Unit) alwaysFailTransport
      ({} : HookState Nat) none).ret.error = some ⟨1, false⟩ := by
  exact final_error_stored_once "/w4" {} { retry := 1 } alwaysFailTransport {} none
    ⟨1, false⟩ (fun j _ => ⟨⟨j, false⟩, rfl⟩) rfl rfl

/-- C6: every `execute` call allocates a fresh `AbortController`
(identifier `s.nextId`, never used before) and overwrites the shared
handle with it, and the merged config handed to the transport carries
exactly that new handle as its abort signal, whatever signal the
caller-supplied config held (the `Payload` type has no signal field at
all). -/
theorem fresh_controller_overrides_signal (url : String) (config : RequestConfig P B)
    (opts : Options P B) (transport : Nat → Except AxiosError (AxiosResponse D))
    (s : HookState D) (pa : Option (Payload P B)) :
    (execute url config opts transport s pa).state.controller = some s.nextId ∧
    (execute url config opts transport s pa).state.nextId = s.nextId + 1 ∧
    (execute url config opts transport s pa).reqConfig.signal = some s.nextId := by
  by_cases hac : opts.autoCancelLastReq <;> by_cases hl : s.isLoading <;>
    by_cases hce : isCancelErr (executeWithRetry transport opts.retry).2 <;>
    simp [execute, executeBody, cancel, mergeConfig, hac, hl, hce]

/-- C7: the default-argument binding of `execute`: calling with no
payload uses `defaultPayload()` — the configured producer is invoked,
a configured plain value is used as is — while an explicit argument
bypasses the default entirely. -/
theorem default_payload_semantics (url : String) (config : RequestConfig P B)
    (opts : Options P B) (transport : Nat → Except AxiosError (AxiosResponse D))
    (s : HookState D) (f : Unit → Payload P B) (p q : Payload P B) :
    execute url config { opts with payload := .producer f } transport s none
      = executeBody url config { opts with payload := .producer f } transport s (some (f ())) ∧
    execute url config { opts with payload := .value p } transport s none
      = executeBody url config { opts with payload := .value p } transport s (some p) ∧
    execute url config opts transport s (some q)
      = executeBody url config opts transport s (some q) := by
  exact ⟨rfl, rfl, rfl⟩

/-- C10: the config handed to the transport is the merge of the
hook-level config with the per-call payload minus `urlParams` (the
merged record has no urlParams field): the payload fields `params` and
`data` win wherever present, the hook config fills the rest, and the
signal slot is the fresh controller.  `Object.assign` writes into a
fresh `{}` target, which the pure model renders by leaving both inputs
untouched. -/
theorem config_merge_override (url : String) (config : RequestConfig P B)
    (opts : Options P B) (transport : Nat → Except AxiosError (AxiosResponse D))
    (s : HookState D) (p : Payload P B) :
    (execute url config opts transport s (some p)).reqConfig =
      { params := p.params.orElse fun _ => config.params
        data := p.data.orElse fun _ => config.data
        signal := some s.nextId } := by
  by_cases hac : opts.autoCancelLastReq <;> by_cases hl : s.isLoading <;>
    by_cases hce : isCancelErr (executeWithRetry transport opts.retry).2 <;>
    simp [execute, executeBody, cancel, mergeConfig, hac, hl, hce]

/-- C5 counterexample: the claim says every `{key}` placeholder is
substituted, but the replacement regex is not global, so with
`url = "/a/{x}/{y}"` and both keys supplied the request URL comes out
as `"/a/1/{y}"`, not the claimed `"/a/1/2"`. -/
theorem url_subst_skips_second_placeholder :
    (execute "/a/{x}/{y}" ({} : RequestConfig Unit Unit) ({} : Options Unit Unit)
      (fun _ => .ok (⟨0⟩ : AxiosResponse Nat)) ({} : HookState Nat)
      (some { urlParams := some [("x", .str "1"), ("y", .str "2")] })).reqUrl
      = "/a/1/{y}" ∧
    ("/a/1/{y}" : String) ≠ "/a/1/2" := by
  exact ⟨by decide, by decide⟩

/-- C5 amended: for a dynamic URL with `urlParams` supplied, only the
FIRST (leftmost) placeholder `{key}` is replaced, by
`String(urlParams[key])`; the prefix before it and everything after it
— including any further placeholder — are passed to the transport
verbatim. -/
theorem url_subst_first_placeholder (url : String) (config : RequestConfig P B)
    (opts : Options P B) (transport : Nat → Except AxiosError (AxiosResponse D))
    (s : HookState D) (p : Payload P B) (up : List (String × UrlValue))
    (pre key suf : List Char)
    (hp : p.urlParams = some up)
    (hf : findFirst url.data = some (pre, key, suf)) :
    url.data = pre ++ '{' :: (key ++ '}' :: suf) ∧
    (execute url config opts transport s (some p)).reqUrl
      = String.mk (pre ++ (jsStringOf (lookupUrlParam up (String.mk key))).data ++ suf) := by
  obtain ⟨hdecomp, hsub⟩ := substUrl_of_findFirst url up hf
  have hdyn : isDynamicURL url = true := testPlaceholder_of_findFirst url.data _ hf
  refine ⟨hdecomp, ?_⟩
  by_cases hac : opts.autoCancelLastReq <;> by_cases hl : s.isLoading <;>
    by_cases hce : isCancelErr (executeWithRetry transport opts.retry).2 <;>
    simp [execute, executeBody, cancel, hac, hl, hce, hp, hdyn, hsub]

/-- Witness for the amended C5 at a concrete input: in
`"/a/{x}/{y}"` with `x` supplied, exactly the leftmost placeholder is
substituted and the suffix `"/{y}"` survives verbatim. -/
theorem url_subst_first_placeholder_witness :
    ("/a/{x}/{y}" : String).data
      = ['/', 'a', '/'] ++ '{' :: (['x'] ++ '}' :: ['/', '{', 'y', '}']) ∧
    (execute "/a/{x}/{y}" ({} : RequestConfig Unit Unit) ({} : Options Unit Unit)
      (fun _ => .ok (⟨0⟩ : AxiosResponse Nat)) ({} : HookState Nat)
      (some { urlParams := some [("x", .str "1")] })).reqUrl
      = String.mk (['/', 'a', '/']
          ++ (jsStringOf (lookupUrlParam [("x", .str "1")] (String.mk ['x']))).data
          ++ ['/', '{', 'y', '}']) := by
  exact url_subst_first_placeholder "/a/{x}/{y}" {} {} (fun _ => .ok ⟨0⟩) {}
    { urlParams := some [("x", UrlValue.str "1")] } [("x", UrlValue.str "1")]
    ['/', 'a', '/'] ['x'] ['/', '{', 'y', '}'] rfl (by decide)

/-- C9 counterexample: the claim says any placeholder with a missing
key becomes the string "undefined" rather than staying intact; but the
substitution stops after the first match, so in `"/a/{x}/{y}"` with
only `x` supplied the `{y}` placeholder — whose key is absent — stays
intact. -/
theorem missing_key_placeholder_left_intact :
    (execute "/a/{x}/{y}" ({} : RequestConfig Unit Unit) ({} : Options Unit Unit)
      (fun _ => .ok (⟨0⟩ : AxiosResponse Nat)) ({} : HookState Nat)
      (some { urlParams := some [("x", .num 1)] })).reqUrl = "/a/1/{y}" ∧
    ("/a/1/{y}" : String) ≠ "/a/1/undefined" := by
  exact ⟨by decide, by decide⟩

/-- C9 amended: substitution of the leftmost placeholder is total:
when the key of the FIRST placeholder is absent from `urlParams`, that
placeholder is replaced by the literal string "undefined" (no failure,
not left intact); later placeholders are outside the substitution and
stay verbatim. -/
theorem missing_key_first_placeholder_undefined (url : String) (config : RequestConfig P B)
    (opts : Options P B) (transport : Nat → Except AxiosError (AxiosResponse D))
    (s : HookState D) (p : Payload P B) (up : List (String × UrlValue))
    (pre key suf : List Char)
    (hp : p.urlParams = some up)
    (hf : findFirst url.data = some (pre, key, suf))
    (habs : lookupUrlParam up (String.mk key) = none) :
    (execute url config opts transport s (some p)).reqUrl
      = String.mk (pre ++ "undefined".data ++ suf) := by
  obtain ⟨_, hsub⟩ := substUrl_of_findFirst url up hf
  rw [habs] at hsub
  have hdyn : isDynamicURL url = true := testPlaceholder_of_findFirst url.data _ hf
  by_cases hac : opts.autoCancelLastReq <;> by_cases hl : s.isLoading <;>
    by_cases hce : isCancelErr (executeWithRetry transport opts.retry).2 <;>
    simp [execute, executeBody, cancel, hac, hl, hce, hp, hdyn, hsub, jsStringOf]

/-- Witness for the amended C9 at a concrete input: in
`"/u/{z}/{y}"` with urlParams holding only an unrelated key, the
leftmost placeholder `{z}` becomes "undefined". -/
theorem missing_key_first_placeholder_undefined_witness :
    (execute "/u/{z}/{y}" ({} : RequestConfig Unit Unit) ({} : Options Unit Unit)
      (fun _ => .ok (⟨0⟩ : AxiosResponse Nat)) ({} : HookState Nat)
      (some { urlParams := some [("q", .str "1")] })).reqUrl
      = String.mk (['/', 'u', '/'] ++ "undefined".data ++ ['/', '{', 'y', '}']) := by
  exact missing_key_first_placeholder_undefined "/u/{z}/{y}" {} {} (fun _ => .ok ⟨0⟩) {}
    { urlParams := some [("q", UrlValue.str "1")] } [("q", UrlValue.str "1")]
    ['/', 'u', '/'] ['z'] ['/', '{', 'y', '}'] rfl (by decide) (by decide)

end VuseAxios
